import Mathlib

/-!
Verification development for the deep-research agent repository.

The repository implements a research pipeline: `ResearchAgent.research`
(orchestrator), a `SearchPlugin` (deduplication / ranking of search
results), a `VerificationPlugin` (cross-referencing, fact-check flagging,
credibility scoring, overall-confidence aggregation), a `CitationPlugin`,
and a two-tier (in-memory + on-disk) result cache.

This file shallowly embeds the relevant JavaScript code in Lean:

* JavaScript strings are `List Char` (ASCII assumed; UTF-16 subtleties are
  out of scope for every statement below).
* JavaScript numbers are modelled as `ℚ` (exact arithmetic; every literal
  occurring in the embedded code is a small decimal fraction).
* Fallible code returns `Except Str`; `null`/`undefined` returns are
  `Option`.
* Ambient effects (event emission, capability invocation, cache writes,
  history pushes, file persistence) are recorded in an explicit effect
  list, and the agent's mutable fields (`this.cache`, the cache directory,
  `this.researchHistory`) are threaded as an explicit `AgentState`.
* Wall-clock values (`Date.now()`, the current year) are supplied through
  an explicit `Env` record.

Definitions follow the JavaScript source function by function; deviations
that cannot matter for any theorem below (e.g. decimal rendering of
non-integer numbers inside display strings) are noted at the definition.
-/

set_option maxHeartbeats 1000000

/-- A JavaScript string, modelled as a list of characters. -/
abbrev Str := List Char

/-- Convenience conversion from a Lean string literal. -/
def jstr (s : String) : Str := s.toList

/-- JavaScript runtime values, restricted to the primitives the embedded
code stores in option objects. -/
inductive JSValue where
  | vstr : Str → JSValue
  | vnum : ℚ → JSValue
  | vbool : Bool → JSValue
  | vnull : JSValue
  | vundefined : JSValue
deriving DecidableEq, Repr

/-- JavaScript truthiness for the values of `JSValue`. -/
def jsTruthy : JSValue → Bool
  | .vstr s => !s.isEmpty
  | .vnum q => decide (q ≠ 0)
  | .vbool b => b
  | .vnull => false
  | .vundefined => false

/-- JavaScript `typeof v === "string"`. -/
def isStringVal : JSValue → Bool
  | .vstr _ => true
  | _ => false

/-- The string payload of a `JSValue` (used after a `typeof` check). -/
def strOfVal : JSValue → Str
  | .vstr s => s
  | _ => []

/-- A JavaScript plain object, as an insertion-ordered association list
(mirroring the ordinary-string-key ordering JavaScript objects keep). -/
abbrev OptionsObj := List (Str × JSValue)

/-- Decimal rendering of a natural number, digit by digit. -/
def natToStr (n : ℕ) : Str :=
  if h : n < 10 then [Char.ofNat (48 + n)]
  else natToStr (n / 10) ++ [Char.ofNat (48 + n % 10)]
termination_by n
decreasing_by
  exact Nat.div_lt_self (by omega) (by omega)

/-- Decimal rendering of an integer. -/
def intToStr (n : ℤ) : Str :=
  if n < 0 then '-' :: natToStr n.natAbs else natToStr n.natAbs

/-- Rendering of an embedded JavaScript number.  Integers render exactly as
in JavaScript; for non-integers the JavaScript decimal expansion is
approximated by a fraction rendering (display-only: no theorem below
depends on the rendering of a non-integer). -/
def qToStr (q : ℚ) : Str :=
  if q.den = 1 then intToStr q.num
  else intToStr q.num ++ '/' :: natToStr q.den

/-- The double-quote character. -/
def quoteChar : Char := Char.ofNat 34

/-- The opening-brace character (written via its code point). -/
def lbraceChar : Char := Char.ofNat 123

/-- The closing-brace character (written via its code point). -/
def rbraceChar : Char := Char.ofNat 125

/-- Interpolation of a list of strings with a separator, as
`Array.prototype.join`. -/
def joinSep (sep : Str) : List Str → Str
  | [] => []
  | [s] => s
  | s :: rest => s ++ sep ++ joinSep sep rest

/-- `JSON.stringify` of a primitive value.  `undefined` never reaches this
function because `jsStringifyObj` drops `undefined`-valued keys first, as
`JSON.stringify` does. -/
def jsStringifyVal : JSValue → Str
  | .vstr s => quoteChar :: s ++ [quoteChar]
  | .vnum q => qToStr q
  | .vbool b => jstr (if b then "true" else "false")
  | .vnull => jstr "null"
  | .vundefined => jstr "null"

/-- `JSON.stringify` of a plain object: keys in insertion order, no
whitespace, `undefined`-valued keys omitted.  String escaping is not
modelled (no key or value below needs it). -/
def jsStringifyObj (o : OptionsObj) : Str :=
  lbraceChar ::
    joinSep [','] ((o.filter (fun p => p.2 ≠ JSValue.vundefined)).map
      (fun p => quoteChar :: p.1 ++ [quoteChar, ':'] ++ jsStringifyVal p.2))
    ++ [rbraceChar]

/-- `ResearchAgent.generateCacheKey`: the template literal
`topic ++ "_" ++ JSON.stringify(options)`. -/
def generateCacheKey (topic : Str) (options : OptionsObj) : Str :=
  topic ++ '_' :: jsStringifyObj options

/-- Concrete options object used to exhibit field-order sensitivity. -/
def optsAB : OptionsObj := [(jstr "a", JSValue.vnum 1), (jstr "b", JSValue.vnum 2)]

/-- The same bindings as `optsAB`, in the opposite field order. -/
def optsBA : OptionsObj := [(jstr "b", JSValue.vnum 2), (jstr "a", JSValue.vnum 1)]

/-! ### String utilities shared by the verification plugin -/

/-- The characters JavaScript `\s` matches in the embedded code's inputs
(ASCII whitespace; exotic Unicode whitespace is out of scope). -/
def isWSChar (c : Char) : Bool := c = ' ' || c = '\t' || c = '\n' || c = '\r'

/-- A sentence delimiter of the regex `[.!?]+`. -/
def isSentenceDelim (c : Char) : Bool := c = '.' || c = '!' || c = '?'

mutual

/-- Worker for `splitRuns`: scanning inside a segment, with the segment
read so far accumulated in reverse. -/
def splitRunsAux (p : Char → Bool) : Str → Str → List Str
  | [], acc => [acc.reverse]
  | c :: cs, acc =>
    if p c then acc.reverse :: splitRunsSkip p cs
    else splitRunsAux p cs (c :: acc)

/-- Worker for `splitRuns`: scanning inside a run of delimiters. -/
def splitRunsSkip (p : Char → Bool) : Str → List Str
  | [] => [[]]
  | c :: cs => if p c then splitRunsSkip p cs else splitRunsAux p cs [c]

end

/-- JavaScript `String.prototype.split` against a one-character-class
regex with `+`: maximal delimiter runs separate segments, and leading or
trailing delimiters contribute empty segments, as in JavaScript. -/
def splitRuns (p : Char → Bool) (s : Str) : List Str := splitRunsAux p s []

/-- JavaScript `String.prototype.trim` (ASCII whitespace). -/
def jsTrim (s : Str) : Str :=
  ((s.dropWhile isWSChar).reverse.dropWhile isWSChar).reverse

mutual

/-- Worker for `collapseWS` while inside non-whitespace. -/
def collapseWSRun : Str → Str
  | [] => []
  | c :: cs => if isWSChar c then ' ' :: collapseWSSkip cs else c :: collapseWSRun cs

/-- Worker for `collapseWS` while inside a whitespace run that has already
produced its single space. -/
def collapseWSSkip : Str → Str
  | [] => []
  | c :: cs => if isWSChar c then collapseWSSkip cs else c :: collapseWSRun cs

end

/-- JavaScript `replace(/\s+/g, ' ')`: each maximal whitespace run becomes
a single space. -/
def collapseWS (s : Str) : Str := collapseWSRun s

/-- A character of the regex class `\w` (`[A-Za-z0-9_]`). -/
def isWordChar (c : Char) : Bool := c.isAlpha || c.isDigit || c = '_'

/-- `VerificationPlugin.normalizeClaim`: lowercase, collapse whitespace to
single spaces, strip characters outside `\w` and `\s`, trim. -/
def normalizeClaim (claim : Str) : Str :=
  jsTrim ((collapseWS (claim.map Char.toLower)).filter
    (fun c => isWordChar c || isWSChar c))

/-- The sentence-segmentation pipeline shared by
`VerificationPlugin.performCrossReferencing` and
`VerificationPlugin.performFactChecking`:
`content.split(/[.!?]+/).map(s => s.trim()).filter(s => s.length > 10)`. -/
def segmentsOf (content : Str) : List Str :=
  ((splitRuns isSentenceDelim content).map jsTrim).filter
    (fun s => 10 < s.length)

/-- Modelled from the claim's words for comparison with `segmentsOf`: the
same segmentation, but keeping every segment of length at least 10 (so a
segment of exactly 10 characters is retained). -/
def segmentsOfClaimed (content : Str) : List Str :=
  ((splitRuns isSentenceDelim content).map jsTrim).filter
    (fun s => 10 ≤ s.length)

/-! ### Core data model -/

/-- JavaScript `String.prototype.startsWith` on list strings (helper for
`strIncludes` and scheme stripping). -/
def strStartsWith : Str → Str → Bool
  | _, [] => true
  | [], _ :: _ => false
  | a :: as, b :: bs => decide (a = b) && strStartsWith as bs

/-- JavaScript `String.prototype.includes`: substring containment. -/
def strIncludes (s pat : Str) : Bool :=
  match s with
  | [] => pat.isEmpty
  | _ :: rest => strStartsWith s pat || strIncludes rest pat

/-- A search result as produced by the search plugins / fallback search
(`id`, `source`, `date` fields are never read by the embedded logic and
are omitted).  `snippet := none` models an absent (`undefined`) snippet. -/
structure SourceRec where
  title : Str
  url : Str
  snippet : Option Str
  quality : ℚ
  relevance : ℚ
deriving DecidableEq, Repr

/-- The record returned by `ResearchAgent.extractContent` (the
`extractedAt` wall-clock field is omitted; nothing reads it). -/
structure ContentRec where
  title : Str
  content : Str
  url : Str
deriving DecidableEq, Repr

/-- The analysis scores attached to a result.  `quality`, `bias` and
`readability` are optional because the fallback analysis object of
`ResearchAgent.analyzeContent` carries no `bias`/`readability` fields; the
verification plugin guards each access with a JavaScript truthiness
check. -/
structure AnalysisRec where
  relevance : ℚ
  sentiment : Str
  entities : List Str
  topics : List Str
  quality : Option ℚ
  bias : Option Str
  readability : Option ℚ
deriving DecidableEq, Repr

/-- One element of `researchContext.results`. -/
structure ResultRec where
  source : SourceRec
  content : ContentRec
  analysis : AnalysisRec
deriving DecidableEq, Repr

/-! ### SearchPlugin.deduplicateResults -/

/-- Worker for `deduplicateResults`: `us` and `ts` are the contents of the
`seenUrls` and `seenTitles` sets (membership is all that matters). -/
def dedupAux : List SourceRec → List Str → List Str → List SourceRec
  | [], _, _ => []
  | r :: rs, us, ts =>
    if r.url ∈ us ∨ r.title ∈ ts then dedupAux rs us ts
    else r :: dedupAux rs (r.url :: us) (r.title :: ts)

/-- `SearchPlugin.deduplicateResults`: filter keeping a result only when
neither its url nor its title has been seen on an earlier retained
result. -/
def deduplicateResults (results : List SourceRec) : List SourceRec :=
  dedupAux results [] []

/-! ### VerificationPlugin: cross-referencing -/

/-- One supporting-occurrence record pushed into the claims map
(`{source: result.source.title, url: result.source.url, content:
sentence}`). -/
structure EntryRec where
  source : Str
  url : Str
  content : Str
deriving DecidableEq, Repr

/-- One element of `verification.cross_references`. -/
structure CrossRefRec where
  claim : Str
  sources : List EntryRec
  count : ℕ
deriving DecidableEq, Repr

/-- All (normalized key, occurrence) pairs contributed by the results, in
iteration order: for each result, each retained segment of its extracted
content. -/
def occurrencesOf (results : List ResultRec) : List (Str × EntryRec) :=
  (results.map (fun r =>
    (segmentsOf r.content.content).map (fun sentence =>
      (normalizeClaim sentence,
        EntryRec.mk r.source.title r.source.url sentence)))).flatten

/-- One step of filling the claims map: JavaScript `Map` keeps first-insertion
key order and `push` appends, so a new key goes to the end of the
association list and an existing key gets the occurrence appended. -/
def insertOcc (k : Str) (e : EntryRec) :
    List (Str × List EntryRec) → List (Str × List EntryRec)
  | [] => [(k, [e])]
  | (k2, es) :: rest =>
    if k2 = k then (k2, es ++ [e]) :: rest else (k2, es) :: insertOcc k e rest

/-- The claims map after inserting every occurrence in order. -/
def buildClaimsMap (occs : List (Str × EntryRec)) : List (Str × List EntryRec) :=
  occs.foldl (fun m p => insertOcc p.1 p.2 m) []

/-- `Map.prototype.get` on the association-list model (first match; the
map never holds duplicate keys). -/
def getOcc (k : Str) : List (Str × List EntryRec) → List EntryRec
  | [] => []
  | (k2, es) :: rest => if k2 = k then es else getOcc k rest

/-- Insertion step of a stable descending-by-`count` sort, modelling the
(stable) JavaScript `sort((a, b) => b.count - a.count)`. -/
def insertByCountDesc (c : CrossRefRec) : List CrossRefRec → List CrossRefRec
  | [] => [c]
  | d :: ds => if d.count < c.count then c :: d :: ds else d :: insertByCountDesc c ds

/-- Stable descending-by-`count` sort (insertion sort; same result as any
stable sort under the same comparator). -/
def sortByCountDesc : List CrossRefRec → List CrossRefRec
  | [] => []
  | c :: cs => insertByCountDesc c (sortByCountDesc cs)

/-- `VerificationPlugin.performCrossReferencing`: group retained segments
by normalized key, keep the groups with more than one occurrence, record
the occurrence list and its length as `count`, sort by `count`
descending. -/
def performCrossReferencing (results : List ResultRec) : List CrossRefRec :=
  let m := buildClaimsMap (occurrencesOf results)
  sortByCountDesc ((m.filter (fun p => 1 < p.2.length)).map
    (fun p => CrossRefRec.mk p.1 p.2 p.2.length))

/-- The occurrences whose normalized key is `k`, in order. -/
def occsFor (results : List ResultRec) (k : Str) : List EntryRec :=
  ((occurrencesOf results).filter (fun p => p.1 = k)).map Prod.snd

/-- Modelled from the claim's words: the number of distinct sources (as
(title, url) pairs) containing a segment normalizing to `k`. -/
def numDistinctSources (results : List ResultRec) (k : Str) : ℕ :=
  (((occurrencesOf results).filter (fun p => p.1 = k)).map
    (fun p => (p.2.source, p.2.url))).dedup.length

/-! ### VerificationPlugin: fact checking, credibility, confidence -/

/-- One element of `verification.fact_checks` (`checkedAt` omitted). -/
structure FactCheckRec where
  claim : Str
  source : Str
  url : Str
  status : Str
  confidence : ℚ
deriving DecidableEq, Repr

/-- One element of `verification.credibility_scores` (`calculatedAt`
omitted). -/
structure CredRec where
  source : Str
  url : Str
  credibility : ℚ
deriving DecidableEq, Repr

/-- The assertion-verb lexicon of the regex
`/found|discovered|research|study|shows|indicates|reveals|demonstrates/`. -/
def assertionPat : List Str :=
  [jstr "found", jstr "discovered", jstr "research", jstr "study",
   jstr "shows", jstr "indicates", jstr "reveals", jstr "demonstrates"]

/-- `VerificationPlugin.performFactChecking`: flag every retained segment
containing a digit (`/\d{4}|\d+/`) or an assertion verb; flagged segments
get status `unchecked` and confidence `0.5`. -/
def performFactChecking (results : List ResultRec) : List FactCheckRec :=
  (results.map (fun r =>
    ((segmentsOf r.content.content).filter (fun s =>
        s.any Char.isDigit || assertionPat.any (fun w => strIncludes s w))).map
      (fun s => FactCheckRec.mk s r.source.title r.source.url
        (jstr "unchecked") (1/2)))).flatten

/-- Per-result credibility score of `VerificationPlugin.calculateCredibility`:
base `0.5`; `+0.2` when the url *contains* `edu`, `org` or `gov` as a
substring, else `+0.1` when it contains `com`; averaged with the analysis
quality when that field is truthy; `-0.2`/`-0.1` for truthy bias equal to
`high`/`medium`; `-0.1`/`+0.1` for truthy readability below `0.2` / above
`0.7`; clamped to `[0, 1]`. -/
def credibilityOf (r : ResultRec) : ℚ :=
  let base : ℚ := 1/2
  let s1 :=
    if strIncludes r.source.url (jstr "edu") || strIncludes r.source.url (jstr "org") ||
        strIncludes r.source.url (jstr "gov") then base + 2/10
    else if strIncludes r.source.url (jstr "com") then base + 1/10
    else base
  let s2 :=
    match r.analysis.quality with
    | some q => if q ≠ 0 then (s1 + q) / 2 else s1
    | none => s1
  let s3 :=
    match r.analysis.bias with
    | some b =>
      if !b.isEmpty then
        (if b = jstr "high" then s2 - 2/10
         else if b = jstr "medium" then s2 - 1/10 else s2)
      else s2
    | none => s2
  let s4 :=
    match r.analysis.readability with
    | some v =>
      if v ≠ 0 then
        (if v < 2/10 then s3 - 1/10 else if 7/10 < v then s3 + 1/10 else s3)
      else s3
    | none => s3
  max 0 (min 1 s4)

/-- `VerificationPlugin.calculateCredibility` over the result list. -/
def calculateCredibility (results : List ResultRec) : List CredRec :=
  results.map (fun r => CredRec.mk r.source.title r.source.url (credibilityOf r))

/-- Scheme stripping used by the claim-side top-level-domain reading. -/
def dropScheme (url : Str) : Str :=
  if strStartsWith url (jstr "https://") then url.drop 8
  else if strStartsWith url (jstr "http://") then url.drop 7
  else url

/-- Hostname of a url: everything before the first `/` after the scheme. -/
def hostOf (url : Str) : Str := (dropScheme url).takeWhile (fun c => c ≠ '/')

/-- Top-level domain of a url: the last dot-separated label of the
hostname. -/
def tldOf (url : Str) : Str :=
  ((hostOf url).reverse.takeWhile (fun c => c ≠ '.')).reverse

/-- Modelled from the claim's words for comparison with `credibilityOf`:
the same scoring but with the domain bonus keyed on the url's *top-level
domain* being `edu`/`org`/`gov` (else `com`), as the claim states, rather
than on substring containment. -/
def credibilityClaimed (r : ResultRec) : ℚ :=
  let base : ℚ := 1/2
  let tld := tldOf r.source.url
  let s1 :=
    if tld = jstr "edu" ∨ tld = jstr "org" ∨ tld = jstr "gov" then base + 2/10
    else if tld = jstr "com" then base + 1/10
    else base
  let s2 :=
    match r.analysis.quality with
    | some q => if q ≠ 0 then (s1 + q) / 2 else s1
    | none => s1
  let s3 :=
    match r.analysis.bias with
    | some b =>
      if !b.isEmpty then
        (if b = jstr "high" then s2 - 2/10
         else if b = jstr "medium" then s2 - 1/10 else s2)
      else s2
    | none => s2
  let s4 :=
    match r.analysis.readability with
    | some v =>
      if v ≠ 0 then
        (if v < 2/10 then s3 - 1/10 else if 7/10 < v then s3 + 1/10 else s3)
      else s3
    | none => s3
  max 0 (min 1 s4)

/-- Domain step of the amended credibility description (substring
containment, as the code does). -/
def domainAdjusted (url : Str) : ℚ :=
  if strIncludes url (jstr "edu") || strIncludes url (jstr "org") ||
      strIncludes url (jstr "gov") then 1/2 + 2/10
  else if strIncludes url (jstr "com") then 1/2 + 1/10
  else 1/2

/-- Quality step of the amended credibility description: average with the
analysis quality when it is present and nonzero (JavaScript truthiness). -/
def qualityAveraged (s : ℚ) : Option ℚ → ℚ
  | some q => if q ≠ 0 then (s + q) / 2 else s
  | none => s

/-- Bias step of the amended credibility description: `-0.2`/`-0.1` for a
nonempty bias string equal to `high`/`medium`. -/
def biasPenalized (s : ℚ) : Option Str → ℚ
  | some b =>
    if !b.isEmpty then
      (if b = jstr "high" then s - 2/10
       else if b = jstr "medium" then s - 1/10 else s)
    else s
  | none => s

/-- Readability step of the amended credibility description: for a
present, nonzero readability, `-0.1` below `0.2` and `+0.1` above `0.7`. -/
def readabilityAdjusted (s : ℚ) : Option ℚ → ℚ
  | some v =>
    if v ≠ 0 then
      (if v < 2/10 then s - 1/10 else if 7/10 < v then s + 1/10 else s)
    else s
  | none => s

/-- The amended per-result credibility description, assembled from its
named steps and clamped to `[0, 1]`. -/
def credibilityAmended (r : ResultRec) : ℚ :=
  max 0 (min 1 (readabilityAdjusted
    (biasPenalized
      (qualityAveraged (domainAdjusted r.source.url) r.analysis.quality)
      r.analysis.bias)
    r.analysis.readability))

/-- `VerificationPlugin.calculateOverallConfidence`:
`min(1, crossRefs.length * 0.3) * 0.6 + avgCredibility * 0.4` with the
average falling back to `0.5` on an empty credibility list. -/
def calculateOverallConfidence (crossRefs : List CrossRefRec)
    (creds : List CredRec) : ℚ :=
  let crossRefConfidence : ℚ := min 1 ((crossRefs.length : ℚ) * (3/10))
  let avgCredibility : ℚ :=
    if 0 < creds.length then
      ((creds.map CredRec.credibility).sum) / (creds.length : ℚ)
    else 1/2
  crossRefConfidence * (6/10) + avgCredibility * (4/10)

/-- `VerificationPlugin.generateVerificationSummary` (template literal,
transcribed; the interior blank lines of the template carry the source's
four-space indentation). -/
def generateVerificationSummary (crossRefs : List CrossRefRec)
    (factChecks : List FactCheckRec) (creds : List CredRec) : Str :=
  let totalSources := creds.length
  let highlyCredible := (creds.filter (fun c => (8 : ℚ)/10 < c.credibility)).length
  let crossRefCount := crossRefs.length
  let factCheckCount := factChecks.length
  jstr "Verification Summary:\n- Total sources analyzed: " ++ natToStr totalSources ++
  jstr "\n- Highly credible sources (credibility > 0.8): " ++ natToStr highlyCredible ++
  jstr "\n- Claims with cross-references: " ++ natToStr crossRefCount ++
  jstr "\n- Claims identified for fact-checking: " ++ natToStr factCheckCount ++
  jstr "\n    \n" ++
  (if 0 < crossRefCount then
    jstr "Key findings supported by multiple sources: " ++
      natToStr crossRefCount ++ jstr " claims"
  else jstr "No cross-referenced claims found.") ++
  jstr "\n    \nCredibility distribution: " ++
  (if highlyCredible = totalSources then jstr "All sources are highly credible"
   else natToStr highlyCredible ++ jstr " out of " ++ natToStr totalSources ++
     jstr " sources are highly credible")

/-- The full verification record of `VerificationPlugin.verify`. -/
structure VerificationRec where
  status : Str
  confidence : ℚ
  cross_references : List CrossRefRec
  fact_checks : List FactCheckRec
  credibility_scores : List CredRec
  verification_summary : Str
deriving DecidableEq, Repr

/-- `VerificationPlugin.verify` on a result set. -/
def verifyPlugin (results : List ResultRec) : VerificationRec :=
  let crossRefs := performCrossReferencing results
  let factChecks := performFactChecking results
  let creds := calculateCredibility results
  { status := jstr "completed"
    confidence := calculateOverallConfidence crossRefs creds
    cross_references := crossRefs
    fact_checks := factChecks
    credibility_scores := creds
    verification_summary := generateVerificationSummary crossRefs factChecks creds }

/-! ### Concrete instances used by counterexamples and witnesses -/

/-- An analysis record with every optional field absent. -/
def analysisNone : AnalysisRec :=
  { relevance := 1, sentiment := jstr "neutral", entities := [], topics := []
    quality := none, bias := none, readability := none }

/-- A single result whose content repeats one long sentence twice. -/
def resultRepeat : ResultRec :=
  { source := { title := jstr "S1", url := jstr "https://a.com", snippet := none
                quality := 1, relevance := 1 }
    content := { title := jstr "S1", url := jstr "https://a.com"
                 content := jstr "abcdefghijklmnop. abcdefghijklmnop." }
    analysis := analysisNone }

/-- A result whose url contains `edu` as a substring while its top-level
domain is `net`. -/
def resultEduNet : ResultRec :=
  { source := { title := jstr "Clips", url := jstr "https://educate.net", snippet := none
                quality := 1, relevance := 1 }
    content := { title := jstr "Clips", url := jstr "https://educate.net"
                 content := jstr "x" }
    analysis := analysisNone }

/-- Two search results sharing a url but differing in title. -/
def srcA : SourceRec :=
  { title := jstr "A", url := jstr "https://a.com", snippet := none
    quality := 1, relevance := 1 }

/-- Second search result with the url of `srcA` and a different title. -/
def srcB : SourceRec :=
  { title := jstr "B", url := jstr "https://a.com", snippet := none
    quality := 0, relevance := 0 }

/-! ### Two-tier result cache and orchestrator -/

/-- The analysis object built by `ResearchAgent.generateAnalysis`.
`queryLLM` returns a record holding only `content`, so on success every
field read (`llmResponse.summary || ''` etc.) yields its default. -/
structure AnalysisOut where
  summary : Str
  keyPoints : List Str
  trends : List Str
  gaps : List Str
deriving DecidableEq, Repr

/-- A citation produced by the citation capability or the fallback. -/
structure CitationRec where
  title : Str
  url : Str
  citation : Str
deriving DecidableEq, Repr

/-- The report object built by `ResearchAgent.generateReport`
(`structure`/`generatedAt` fields omitted: nothing reads them). -/
structure ReportOut where
  content : Str
  citations : List CitationRec
  format : JSValue
deriving DecidableEq, Repr

/-- The `researchContext` record assembled by `ResearchAgent.research`
(the transient `citations` field of the initial object is never read and
is omitted). -/
structure ResearchCtx where
  topic : Str
  options : OptionsObj
  sources : List SourceRec
  results : List ResultRec
  verification : Option VerificationRec
  analysis : AnalysisOut
  report : ReportOut
deriving DecidableEq, Repr

/-- One cache entry: `{data, timestamp}` as serialized by
`setCachedResult`. -/
structure CacheEntry where
  data : ResearchCtx
  timestamp : ℤ
deriving DecidableEq, Repr

/-- One element of `this.researchHistory` (`id` omitted). -/
structure HistoryEntry where
  topic : Str
  timestamp : ℤ
  results : ResearchCtx
deriving DecidableEq, Repr

/-- The agent's mutable state: the in-memory cache map, the cache
directory (one keyed file per entry), and the research history. -/
structure AgentState where
  memCache : List (Str × CacheEntry)
  fileCache : List (Str × CacheEntry)
  history : List HistoryEntry
deriving DecidableEq, Repr

/-- Ambient wall-clock inputs: `Date.now()` in milliseconds and the
rendered current year used by the fallback citation string. -/
structure Env where
  now : ℤ
  yearStr : Str
deriving DecidableEq, Repr

/-- The storage / research configuration fields the orchestrator reads. -/
structure ResearchConfig where
  cacheEnabled : Bool
  cacheTtl : ℤ
  maxSources : ℕ
  verificationEnabled : Bool
  persistResults : Bool
  citationStyle : Str
  customization : OptionsObj

/-- Observable effects of a research call, in order of occurrence. -/
inductive Effect where
  | emit : Str → Effect
  | capCall : Str → Effect
  | cacheWrite : Str → Effect
  | fileCacheWrite : Str → Effect
  | historyPush : Effect
  | persistWrite : Effect
deriving DecidableEq, Repr

/-- Whether an effect is an invocation of an installed capability or of
the synthesis provider. -/
def Effect.isCapCall : Effect → Bool
  | .capCall _ => true
  | _ => false

/-- Whether an effect writes durable or agent state. -/
def Effect.isStateWrite : Effect → Bool
  | .cacheWrite _ => true
  | .fileCacheWrite _ => true
  | .historyPush => true
  | .persistWrite => true
  | _ => false

/-- `Map.prototype.get` / keyed-file lookup on an association list. -/
def lookupEntry (k : Str) : List (Str × CacheEntry) → Option CacheEntry
  | [] => none
  | (k2, e) :: rest => if k2 = k then some e else lookupEntry k rest

/-- `Map.prototype.delete` / `fs.unlink` of one keyed entry. -/
def eraseEntry (k : Str) : List (Str × CacheEntry) → List (Str × CacheEntry)
  | [] => []
  | (k2, e) :: rest => if k2 = k then rest else (k2, e) :: eraseEntry k rest

/-- `Map.prototype.set` / keyed-file write: update in place, else append
(JavaScript `Map` keeps first-insertion order). -/
def setEntry (k : Str) (v : CacheEntry) :
    List (Str × CacheEntry) → List (Str × CacheEntry)
  | [] => [(k, v)]
  | (k2, e) :: rest => if k2 = k then (k2, v) :: rest else (k2, e) :: setEntry k v rest

/-- The file-tier read-through of `ResearchAgent.getCachedResult`: only
entered when the memory tier yielded nothing; guarded by
`storage.cacheEnabled`; a valid durable entry is returned without
touching the memory tier; an expired durable entry is unlinked; a missing
or unreadable file is a miss. -/
def fileTierRead (cfg : ResearchConfig) (now : ℤ)
    (mem file : List (Str × CacheEntry)) (key : Str) :
    Option ResearchCtx × List (Str × CacheEntry) × List (Str × CacheEntry) :=
  if cfg.cacheEnabled then
    match lookupEntry key file with
    | some entry =>
      if now - entry.timestamp < cfg.cacheTtl * 1000 then (some entry.data, mem, file)
      else (none, mem, eraseEntry key file)
    | none => (none, mem, file)
  else (none, mem, file)

/-- `ResearchAgent.getCachedResult`: memory tier first (lazy expiry
deletes an expired entry), then the durable tier.  Returns the hit (if
any) together with both tiers after the lookup. -/
def getCachedResult (cfg : ResearchConfig) (now : ℤ)
    (mem file : List (Str × CacheEntry)) (key : Str) :
    Option ResearchCtx × List (Str × CacheEntry) × List (Str × CacheEntry) :=
  match lookupEntry key mem with
  | some entry =>
    if now - entry.timestamp < cfg.cacheTtl * 1000 then (some entry.data, mem, file)
    else fileTierRead cfg now (eraseEntry key mem) file key
  | none => fileTierRead cfg now mem file key

/-- `ResearchAgent.setCachedResult`: always sets the memory tier; writes
the keyed file only when caching is enabled (a file-write failure is
swallowed by the source and not modelled). -/
def setCachedResult (cfg : ResearchConfig) (now : ℤ) (st : AgentState)
    (key : Str) (ctx : ResearchCtx) : AgentState × List Effect :=
  let st2 := { st with memCache := setEntry key ⟨ctx, now⟩ st.memCache }
  if cfg.cacheEnabled then
    ({ st2 with fileCache := setEntry key ⟨ctx, now⟩ st2.fileCache },
      [Effect.cacheWrite key, Effect.fileCacheWrite key])
  else (st2, [Effect.cacheWrite key])

/-- The installed capabilities (`this.plugins`): `none` models an absent
plugin; an installed capability is an arbitrary function that may throw
(`Except.error`).  `llm` abstracts `queryLLM` (its credential / provider
checks and the HTTP transport are all error outcomes of the function). -/
structure Caps where
  search : Option (Str → OptionsObj → Except Str (List SourceRec))
  analysis : Option (ContentRec → Str → Except Str AnalysisRec)
  verification : Option (List ResultRec → Except Str VerificationRec)
  citation : Option (List ResultRec → Str → List CitationRec)
  llm : Str → Except Str Str

/-- `ResearchAgent.fallbackSearch` (`id`/`source` fields omitted as for
every `SourceRec`). -/
def fallbackSearch (topic : Str) : List SourceRec :=
  [{ title := jstr "General search results for: " ++ topic
     url := jstr "#"
     snippet := some (jstr "Search results for " ++ topic)
     quality := 8/10, relevance := 9/10 }]

/-- `ResearchAgent.performSearch`: invoke the installed search capability
(whose error propagates), else the fallback. -/
def performSearch (caps : Caps) (topic : Str) (options : OptionsObj) :
    Except Str (List SourceRec) × List Effect :=
  match caps.search with
  | some f => (f topic options, [Effect.capCall (jstr "search")])
  | none => (Except.ok (fallbackSearch topic), [])

/-- JavaScript `v || d` for an optional string (absent and empty are both
falsy). -/
def jsStrOr (v : Option Str) (d : Str) : Str :=
  match v with
  | some s => if s.isEmpty then d else s
  | none => d

/-- `ResearchAgent.extractContent`: unconditionally returns a record, with
`title` and `content` falling back on falsy inputs (`extractedAt`
omitted).  The `Option` return type models the JavaScript truthiness
check at the call site. -/
def extractContent (source : SourceRec) : Option ContentRec :=
  some { title := jsStrOr (some source.title) (jstr "Untitled")
         content := jsStrOr source.snippet (jstr "Content not available")
         url := source.url }

/-- The fallback analysis object of `ResearchAgent.analyzeContent`
(carries no `bias`/`readability` fields). -/
def fallbackAnalysis (topic : Str) : AnalysisRec :=
  { relevance := 8/10, sentiment := jstr "neutral", entities := [], topics := [topic]
    quality := some (7/10), bias := none, readability := none }

/-- `ResearchAgent.analyzeContent`: installed analysis capability (errors
propagate), else the fixed fallback. -/
def analyzeContent (caps : Caps) (content : ContentRec) (topic : Str) :
    Except Str AnalysisRec × List Effect :=
  match caps.analysis with
  | some f => (f content topic, [Effect.capCall (jstr "analysis")])
  | none => (Except.ok (fallbackAnalysis topic), [])

/-- The per-source loop of `ResearchAgent.research`: extract content,
skip a source whose extraction is falsy, analyze the rest; an analysis
error aborts the loop (and the call). -/
def gatherResults (caps : Caps) (topic : Str) :
    List SourceRec → Except Str (List ResultRec) × List Effect
  | [] => (Except.ok [], [])
  | s :: rest =>
    match extractContent s with
    | none => gatherResults caps topic rest
    | some c =>
      match analyzeContent caps c topic with
      | (Except.error e, lg) => (Except.error e, lg)
      | (Except.ok a, lg) =>
        match gatherResults caps topic rest with
        | (Except.error e, lg2) => (Except.error e, lg ++ lg2)
        | (Except.ok rs, lg2) =>
          (Except.ok ({ source := s, content := c, analysis := a } :: rs), lg ++ lg2)

/-- The fallback verification object of `ResearchAgent.verifyInformation`
(the source object carries only `status`, `confidence`,
`cross_references`; the remaining fields are modelled empty). -/
def fallbackVerification : VerificationRec :=
  { status := jstr "not_verified", confidence := 1/2, cross_references := []
    fact_checks := [], credibility_scores := [], verification_summary := [] }

/-- `ResearchAgent.verifyInformation`: installed verification capability
(errors propagate; the plugin only reads `context.results`), else the
fixed fallback. -/
def verifyInformation (caps : Caps) (results : List ResultRec) :
    Except Str VerificationRec × List Effect :=
  match caps.verification with
  | some f => (f results, [Effect.capCall (jstr "verification")])
  | none => (Except.ok fallbackVerification, [])

/-- Last-binding-wins property lookup on an options object. -/
def objGetOpt (o : OptionsObj) (k : Str) : Option JSValue :=
  (o.reverse.find? (fun p => p.1 = k)).map Prod.snd

/-- JavaScript property access: `undefined` when absent. -/
def objGet (o : OptionsObj) (k : Str) : JSValue :=
  (objGetOpt o k).getD JSValue.vundefined

/-- JavaScript object spread `{...a, ...b}`: keys of `a` in order with
values overridden by `b`, then the new keys of `b`. -/
def objSpread (a b : OptionsObj) : OptionsObj :=
  a.map (fun p => (p.1, (objGetOpt b p.1).getD p.2)) ++
    b.filter (fun q => !(a.any (fun p => p.1 = q.1)))

/-- Template-literal rendering of a value (`undefined` renders as the
string `undefined`). -/
def jsDisplay : JSValue → Str
  | .vstr s => s
  | .vnum q => qToStr q
  | .vbool b => jstr (if b then "true" else "false")
  | .vnull => jstr "null"
  | .vundefined => jstr "undefined"

/-- Template rendering of an optional number. -/
def optQDisplay : Option ℚ → Str
  | some q => qToStr q
  | none => jstr "undefined"

/-- `ResearchAgent.buildAnalysisPrompt` (template literal transcribed;
number rendering as in `qToStr`). -/
def buildAnalysisPrompt (topic : Str) (results : List ResultRec)
    (options : OptionsObj) : Str :=
  jstr "You are an expert research analyst. Analyze the following research on \"" ++
  topic ++
  jstr "\" and provide a comprehensive analysis.\n\nResearch Results:\n" ++
  joinSep (jstr "\n") (results.map (fun r =>
    jstr "\nSource: " ++ r.source.title ++
    jstr "\nContent: " ++ r.content.content ++
    jstr "\nRelevance: " ++ qToStr r.analysis.relevance ++
    jstr "\nQuality: " ++ optQDisplay r.analysis.quality ++ jstr "\n")) ++
  jstr "\n\nAnalysis Options:\n- Persona: " ++ jsDisplay (objGet options (jstr "persona")) ++
  jstr "\n- Tone: " ++ jsDisplay (objGet options (jstr "tone")) ++
  jstr "\n- Depth: " ++ jsDisplay (objGet options (jstr "depth")) ++
  jstr "\n- Format: " ++ jsDisplay (objGet options (jstr "format")) ++
  jstr "\n\nProvide a detailed analysis with key findings, trends, gaps in research, and quality assessment."

/-- `ResearchAgent.generateAnalysis`: query the synthesis provider; on
success every field of the returned analysis is its default (the provider
response carries only `content`); on failure the degraded placeholder. -/
def generateAnalysis (caps : Caps) (topic : Str) (results : List ResultRec)
    (options : OptionsObj) : AnalysisOut × List Effect :=
  match caps.llm (buildAnalysisPrompt topic results options) with
  | Except.ok _content =>
    ({ summary := [], keyPoints := [], trends := [], gaps := [] },
      [Effect.capCall (jstr "llm")])
  | Except.error _ =>
    ({ summary := jstr "Analysis could not be generated", keyPoints := []
       trends := [], gaps := [] },
      [Effect.capCall (jstr "llm")])

/-- `ResearchAgent.generateCitations`: installed citation capability, else
the fallback `(title, current year)` citation strings. -/
def generateCitations (caps : Caps) (cfg : ResearchConfig) (env : Env)
    (results : List ResultRec) : List CitationRec :=
  match caps.citation with
  | some f => f results cfg.citationStyle
  | none =>
    results.map (fun r =>
      { title := r.source.title, url := r.source.url
        citation := '(' :: r.source.title ++ jstr ", " ++ env.yearStr ++ [')'] })

/-- `ResearchAgent.buildReportPrompt` (template literal transcribed). -/
def buildReportPrompt (topic : Str) (analysis : AnalysisOut)
    (results : List ResultRec) (options : OptionsObj) : Str :=
  jstr "Generate a " ++ jsDisplay (objGet options (jstr "format")) ++
  jstr " research report on \"" ++ topic ++
  jstr "\" based on the following analysis:\n\nAnalysis Summary:\n" ++
  analysis.summary ++
  jstr "\n\nKey Points:\n" ++ joinSep (jstr "\n- ") analysis.keyPoints ++
  jstr "\n\nResearch Results:\n" ++
  joinSep (jstr "\n") (results.map (fun r =>
    jstr "\nSource: " ++ r.source.title ++
    jstr "\nContent: " ++ r.content.content.take 200 ++ jstr "...\n")) ++
  jstr "\n\nFormat Requirements:\n- Persona: " ++ jsDisplay (objGet options (jstr "persona")) ++
  jstr "\n- Tone: " ++ jsDisplay (objGet options (jstr "tone")) ++
  jstr "\n- Depth: " ++ jsDisplay (objGet options (jstr "depth")) ++
  jstr "\n- Format: " ++ jsDisplay (objGet options (jstr "format")) ++
  jstr "\n- Language: " ++ jsDisplay (objGet options (jstr "language")) ++
  jstr "\n\nInclude proper structure, citations, and follow " ++
  jsDisplay (objGet options (jstr "tone")) ++ jstr " tone."

/-- `ResearchAgent.generateReport`: query the synthesis provider; on
success the report carries the generated content and citations; on
failure the degraded placeholder with no citations. -/
def generateReport (caps : Caps) (cfg : ResearchConfig) (env : Env) (topic : Str)
    (analysis : AnalysisOut) (results : List ResultRec) (options : OptionsObj) :
    ReportOut × List Effect :=
  match caps.llm (buildReportPrompt topic analysis results options) with
  | Except.ok content =>
    ({ content := content, citations := generateCitations caps cfg env results
       format := objGet options (jstr "format") },
      [Effect.capCall (jstr "llm")])
  | Except.error _ =>
    ({ content := jstr "Report could not be generated", citations := []
       format := objGet options (jstr "format") },
      [Effect.capCall (jstr "llm")])

/-- `ResearchAgent.research`: emit `research:start`; validate the topic
(fatal); consult the cache; on a miss run search → per-source
extraction/analysis → optional verification (errors of installed
capabilities propagate to the caller, re-emitted as `research:error`) →
synthesis (recovering internally) → history push → cache write →
persistence → `research:complete`.  Returns the outcome, the effect list
in order, and the final agent state. -/
def research (cfg : ResearchConfig) (caps : Caps) (env : Env) (st : AgentState)
    (topic : JSValue) (options : OptionsObj) :
    Except Str ResearchCtx × List Effect × AgentState :=
  let log0 := [Effect.emit (jstr "research:start")]
  if !(jsTruthy topic) || !(isStringVal topic) then
    (Except.error (jstr "Research topic must be a non-empty string"),
      log0 ++ [Effect.emit (jstr "research:error")], st)
  else
    let topicS := strOfVal topic
    let cacheKey := generateCacheKey topicS options
    let cacheStep :=
      if cfg.cacheEnabled then
        let r := getCachedResult cfg env.now st.memCache st.fileCache cacheKey
        (r.1, { st with memCache := r.2.1, fileCache := r.2.2 })
      else (none, st)
    match cacheStep with
    | (some ctx, st1) =>
      (Except.ok ctx, log0 ++ [Effect.emit (jstr "research:cache-hit")], st1)
    | (none, st1) =>
      let ctxOptions := objSpread cfg.customization options
      match performSearch caps topicS options with
      | (Except.error e, lg) =>
        (Except.error e, log0 ++ lg ++ [Effect.emit (jstr "research:error")], st1)
      | (Except.ok searchResults, lg) =>
        match gatherResults caps topicS (searchResults.take cfg.maxSources) with
        | (Except.error e, lg2) =>
          (Except.error e, log0 ++ lg ++ lg2 ++ [Effect.emit (jstr "research:error")], st1)
        | (Except.ok results, lg2) =>
          match (if cfg.verificationEnabled then
              match verifyInformation caps results with
              | (Except.error e, lg3) => (Except.error e, lg3)
              | (Except.ok v, lg3) => (Except.ok (some v), lg3)
            else (Except.ok none, [])) with
          | (Except.error e, lg3) =>
            (Except.error e,
              log0 ++ lg ++ lg2 ++ lg3 ++ [Effect.emit (jstr "research:error")], st1)
          | (Except.ok verif, lg3) =>
            let aout := generateAnalysis caps topicS results ctxOptions
            let rout := generateReport caps cfg env topicS aout.1 results ctxOptions
            let ctx : ResearchCtx :=
              { topic := topicS, options := ctxOptions, sources := searchResults
                results := results, verification := verif
                analysis := aout.1, report := rout.1 }
            let st2 := { st1 with history := st1.history ++ [⟨topicS, env.now, ctx⟩] }
            let cacheW :=
              if cfg.cacheEnabled then setCachedResult cfg env.now st2 cacheKey ctx
              else (st2, [])
            let persistLg := if cfg.persistResults then [Effect.persistWrite] else []
            (Except.ok ctx,
              log0 ++ lg ++ lg2 ++ lg3 ++ aout.2 ++ rout.2 ++ [Effect.historyPush] ++
                cacheW.2 ++ persistLg ++ [Effect.emit (jstr "research:complete")],
              cacheW.1)

/-! ### Concrete overlay: configurations, capabilities, states -/

/-- An empty research context (payload for cache-entry instances). -/
def ctxDummy : ResearchCtx :=
  { topic := [], options := [], sources := [], results := [], verification := none
    analysis := { summary := [], keyPoints := [], trends := [], gaps := [] }
    report := { content := [], citations := [], format := JSValue.vundefined } }

/-- Default-like configuration with caching enabled. -/
def cfgCacheOn : ResearchConfig :=
  { cacheEnabled := true, cacheTtl := 86400, maxSources := 10
    verificationEnabled := true, persistResults := false
    citationStyle := jstr "apa", customization := [] }

/-- Default-like configuration with caching disabled. -/
def cfgNoCache : ResearchConfig :=
  { cacheEnabled := false, cacheTtl := 86400, maxSources := 10
    verificationEnabled := true, persistResults := false
    citationStyle := jstr "apa", customization := [] }

/-- Capabilities with no installed plugin and an unconfigured provider. -/
def capsNone : Caps :=
  { search := none, analysis := none, verification := none, citation := none
    llm := fun _ => Except.error (jstr "API key is required for LLM queries") }

/-- Capabilities whose installed search capability throws. -/
def capsSearchThrow : Caps :=
  { search := some (fun _ _ => Except.error (jstr "search engine down"))
    analysis := none, verification := none, citation := none
    llm := fun _ => Except.error (jstr "API key is required for LLM queries") }

/-- A fixed clock. -/
def envZero : Env := { now := 0, yearStr := jstr "2026" }

/-- The empty agent state. -/
def stEmpty : AgentState := { memCache := [], fileCache := [], history := [] }

/-- The occurrence record of the repeated sentence of `resultRepeat`. -/
def entryRepeat : EntryRec :=
  { source := jstr "S1", url := jstr "https://a.com"
    content := jstr "abcdefghijklmnop" }

/-- The cross-reference record produced from `resultRepeat`. -/
def crossRefRepeat : CrossRefRec :=
  { claim := jstr "abcdefghijklmnop", sources := [entryRepeat, entryRepeat]
    count := 2 }

/-! ## Theorems -/

/-- CLAIM C2 (counterexample).  Two semantically equal options objects
(same key/value bindings, a permutation of one another, no duplicate keys)
produce different cache keys when their field order differs, refuting the
claim that `generateCacheKey` is insensitive to field order. -/
theorem generateCacheKey_field_order_cex :
    optsAB.Perm optsBA ∧ (optsAB.map Prod.fst).Nodup ∧
      generateCacheKey (jstr "t") optsAB ≠ generateCacheKey (jstr "t") optsBA := by
  refine ⟨by decide, by decide, by decide⟩

/-- CLAIM C2 (corrected).  The cache key is determined by, and only by,
the topic together with the stringified options: for a fixed topic, two
options objects collide on the same key exactly when their
`JSON.stringify` renderings (which expose field order) coincide. -/
theorem generateCacheKey_eq_iff_stringify_eq (topic : Str) (a b : OptionsObj) :
    generateCacheKey topic a = generateCacheKey topic b ↔
      jsStringifyObj a = jsStringifyObj b := by
  unfold generateCacheKey
  constructor
  · intro h
    have h2 := List.append_cancel_left h
    exact List.cons_injective h2
  · intro h
    rw [h]

/-- CLAIM C7 (counterexample).  On a text consisting of a single
10-character segment, the code's segmentation (`length > 10`) discards the
segment while the claimed segmentation (`length ≥ 10`, "a segment of
exactly 10 characters is retained") keeps it. -/
theorem segments_length_ten_cex :
    (jstr "abcdefghij").length = 10 ∧
      segmentsOf (jstr "abcdefghij") = [] ∧
      segmentsOfClaimed (jstr "abcdefghij") = [jstr "abcdefghij"] := by
  refine ⟨by decide, by decide, by decide⟩

/-- CLAIM C7 (corrected).  Claim extraction splits the text into segments
delimited by `.`, `!`, `?`, trims each segment, and keeps exactly the
trimmed segments of length at least 11 (strictly greater than 10): a
segment of exactly 10 characters is discarded. -/
theorem segments_strict_length_characterization (content : Str) (s : Str) :
    s ∈ segmentsOf content ↔
      s ∈ (splitRuns isSentenceDelim content).map jsTrim ∧ 11 ≤ s.length := by
  unfold segmentsOf
  rw [List.mem_filter]
  constructor
  · rintro ⟨hmem, hlen⟩
    rw [decide_eq_true_eq] at hlen
    exact ⟨hmem, by omega⟩
  · rintro ⟨hmem, hlen⟩
    exact ⟨hmem, by rw [decide_eq_true_eq]; omega⟩

/-- Helper: reading the key just inserted returns the previous occurrence
list with the new occurrence appended. -/
theorem getOcc_insert_self (k : Str) (e : EntryRec) (m : List (Str × List EntryRec)) :
    getOcc k (insertOcc k e m) = getOcc k m ++ [e] := by
  induction m with
  | nil => simp [insertOcc, getOcc]
  | cons p rest ih =>
    obtain ⟨k2, es⟩ := p
    by_cases h : k2 = k
    · subst h
      simp [insertOcc, getOcc]
    · simp [insertOcc, getOcc, h, ih]

/-- Helper: inserting under one key leaves every other key's occurrence
list unchanged. -/
theorem getOcc_insert_ne (k k2 : Str) (e : EntryRec)
    (m : List (Str × List EntryRec)) (h : k2 ≠ k) :
    getOcc k (insertOcc k2 e m) = getOcc k m := by
  induction m with
  | nil => simp [insertOcc, getOcc, h]
  | cons p rest ih =>
    obtain ⟨k3, es⟩ := p
    by_cases h3 : k3 = k2
    · subst h3
      simp [insertOcc, getOcc, h]
    · by_cases h4 : k3 = k
      · subst h4
        simp [insertOcc, getOcc, h3]
      · simp [insertOcc, getOcc, h3, h4, ih]

/-- Helper: after folding all occurrences into the claims map, each key
holds exactly its occurrences, in order. -/
theorem getOcc_buildStep (occs : List (Str × EntryRec)) :
    ∀ (m : List (Str × List EntryRec)) (k : Str),
      getOcc k (occs.foldl (fun m p => insertOcc p.1 p.2 m) m)
        = getOcc k m ++ (occs.filter (fun p => p.1 = k)).map Prod.snd := by
  induction occs with
  | nil => intro m k; simp
  | cons p rest ih =>
    intro m k
    rw [List.foldl_cons, ih]
    by_cases h : p.1 = k
    · subst h
      rw [List.filter_cons_of_pos (by simp), List.map_cons, getOcc_insert_self,
        List.append_assoc, List.singleton_append]
    · rw [List.filter_cons_of_neg (by simp [h]), getOcc_insert_ne _ _ _ _ h]

/-- Helper: `buildClaimsMap` gives each key exactly its occurrences. -/
theorem getOcc_buildClaimsMap (occs : List (Str × EntryRec)) (k : Str) :
    getOcc k (buildClaimsMap occs) = (occs.filter (fun p => p.1 = k)).map Prod.snd := by
  unfold buildClaimsMap
  rw [getOcc_buildStep]
  simp [getOcc]

/-- Helper: inserting introduces no key other than the inserted one. -/
theorem keys_insertOcc_sub (k x : Str) (e : EntryRec)
    (m : List (Str × List EntryRec)) :
    x ∈ (insertOcc k e m).map Prod.fst → x ∈ m.map Prod.fst ∨ x = k := by
  induction m with
  | nil =>
    intro h
    simp [insertOcc] at h
    exact Or.inr h
  | cons p rest ih =>
    obtain ⟨k2, es⟩ := p
    intro h
    by_cases h2 : k2 = k
    · subst h2
      simp only [insertOcc, if_pos rfl, List.map_cons] at h
      exact Or.inl (by simpa using h)
    · simp only [insertOcc, if_neg h2, List.map_cons, List.mem_cons] at h
      rcases h with h | h
      · exact Or.inl (List.mem_cons.2 (Or.inl h))
      · rcases ih h with h | h
        · exact Or.inl (List.mem_cons.2 (Or.inr h))
        · exact Or.inr h

/-- Helper: insertion preserves key distinctness of the claims map. -/
theorem keys_insertOcc_nodup (k : Str) (e : EntryRec)
    (m : List (Str × List EntryRec)) (h : (m.map Prod.fst).Nodup) :
    ((insertOcc k e m).map Prod.fst).Nodup := by
  induction m with
  | nil => simp [insertOcc]
  | cons p rest ih =>
    obtain ⟨k2, es⟩ := p
    rw [List.map_cons, List.nodup_cons] at h
    by_cases h2 : k2 = k
    · subst h2
      have heq : insertOcc k2 e ((k2, es) :: rest) = (k2, es ++ [e]) :: rest := by
        simp [insertOcc]
      rw [heq, List.map_cons, List.nodup_cons]
      exact h
    · simp only [insertOcc, if_neg h2, List.map_cons, List.nodup_cons]
      refine ⟨?_, ih h.2⟩
      intro hmem
      rcases keys_insertOcc_sub k k2 e rest hmem with hk | hk
      · exact h.1 hk
      · exact h2 hk

/-- Helper: the claims map built from scratch has pairwise distinct keys. -/
theorem keys_build_nodup (occs : List (Str × EntryRec)) :
    ((buildClaimsMap occs).map Prod.fst).Nodup := by
  unfold buildClaimsMap
  have main : ∀ (m : List (Str × List EntryRec)), (m.map Prod.fst).Nodup →
      (((occs.foldl (fun m p => insertOcc p.1 p.2 m) m)).map Prod.fst).Nodup := by
    induction occs with
    | nil => intro m h; simpa using h
    | cons p rest ih =>
      intro m h
      rw [List.foldl_cons]
      exact ih _ (keys_insertOcc_nodup p.1 p.2 m h)
  exact main [] (by simp)

/-- Helper: under distinct keys, a map entry is what `getOcc` reads. -/
theorem getOcc_of_mem (k : Str) (es : List EntryRec) :
    ∀ (m : List (Str × List EntryRec)), (m.map Prod.fst).Nodup →
      (k, es) ∈ m → getOcc k m = es := by
  intro m
  induction m with
  | nil => intro _ hm; cases hm
  | cons p rest ih =>
    intro hnd hm
    obtain ⟨k2, es2⟩ := p
    rw [List.map_cons, List.nodup_cons] at hnd
    rcases List.mem_cons.1 hm with h | h
    · injection h with h1 h2
      subst h1
      subst h2
      simp [getOcc]
    · have hne : k2 ≠ k := by
        intro he
        subst he
        exact hnd.1 (List.mem_map.2 ⟨(k2, es), h, rfl⟩)
      simp only [getOcc, if_neg hne]
      exact ih hnd.2 h

/-- Helper: a key with a nonempty occurrence list is present in the map as
an entry carrying exactly that list. -/
theorem mem_of_getOcc_ne (k : Str) (m : List (Str × List EntryRec))
    (h : getOcc k m ≠ []) : (k, getOcc k m) ∈ m := by
  induction m with
  | nil => simp [getOcc] at h
  | cons p rest ih =>
    obtain ⟨k2, es⟩ := p
    by_cases h2 : k2 = k
    · subst h2
      simp only [getOcc, if_pos rfl] at h ⊢
      exact List.mem_cons_self _ _
    · simp only [getOcc, if_neg h2] at h ⊢
      exact List.mem_cons_of_mem _ (ih h)

/-- Helper: the stable insertion step is a permutation of consing. -/
theorem insertByCountDesc_perm (c : CrossRefRec) (l : List CrossRefRec) :
    (insertByCountDesc c l).Perm (c :: l) := by
  induction l with
  | nil => simp [insertByCountDesc]
  | cons d ds ih =>
    by_cases h : d.count < c.count
    · simp [insertByCountDesc, h]
    · simp only [insertByCountDesc, if_neg h]
      exact (ih.cons d).trans (List.Perm.swap c d ds)

/-- Helper: the descending sort permutes its input. -/
theorem sortByCountDesc_perm (l : List CrossRefRec) :
    (sortByCountDesc l).Perm l := by
  induction l with
  | nil => simp [sortByCountDesc]
  | cons c cs ih =>
    exact (insertByCountDesc_perm c (sortByCountDesc cs)).trans (ih.cons c)

/-- CLAIM C3 (counterexample).  A single analyzed result whose content
repeats one long sentence twice yields a cross-reference listed with count
2 even though the normalized claim appears under exactly one distinct
source, refuting both the distinct-source membership condition and the
distinct-source count. -/
theorem crossref_single_source_repeat_cex :
    numDistinctSources [resultRepeat] (jstr "abcdefghijklmnop") = 1 ∧
      (performCrossReferencing [resultRepeat]).map
        (fun c => (c.claim, c.count)) = [(jstr "abcdefghijklmnop", 2)] := by
  exact ⟨by decide, by decide⟩

/-- CLAIM C3 (corrected).  A normalized claim is listed as a
cross-reference iff it has at least 2 occurrences (retained segments,
counted with multiplicity) across the analyzed results, and each listed
cross-reference records exactly the occurrence list and its length — the
number of matching segments, not the number of distinct sources; in
particular a claim repeated within a single source is listed. -/
theorem crossref_occurrence_characterization (results : List ResultRec) (k : Str) :
    (k ∈ (performCrossReferencing results).map CrossRefRec.claim ↔
      2 ≤ (occsFor results k).length)
    ∧ ∀ c ∈ performCrossReferencing results,
        c.sources = occsFor results c.claim ∧
          c.count = (occsFor results c.claim).length ∧ 2 ≤ c.count := by
  have hocc : ∀ k2, getOcc k2 (buildClaimsMap (occurrencesOf results))
      = occsFor results k2 := fun k2 => getOcc_buildClaimsMap (occurrencesOf results) k2
  have hnd := keys_build_nodup (occurrencesOf results)
  have hperm : (performCrossReferencing results).Perm
      (((buildClaimsMap (occurrencesOf results)).filter
          (fun p => 1 < p.2.length)).map
        (fun p => CrossRefRec.mk p.1 p.2 p.2.length)) := by
    unfold performCrossReferencing
    exact sortByCountDesc_perm _
  have hmem : ∀ c ∈ performCrossReferencing results,
      c.sources = occsFor results c.claim ∧
        c.count = (occsFor results c.claim).length ∧ 2 ≤ c.count := by
    intro c hc
    have hc2 := hperm.mem_iff.1 hc
    rw [List.mem_map] at hc2
    obtain ⟨p, hp, hcp⟩ := hc2
    rw [List.mem_filter] at hp
    obtain ⟨hpm, hlen⟩ := hp
    have hget : getOcc p.1 (buildClaimsMap (occurrencesOf results)) = p.2 :=
      getOcc_of_mem p.1 p.2 _ hnd hpm
    have hofor : occsFor results p.1 = p.2 := by rw [← hocc p.1, hget]
    subst hcp
    simp only [decide_eq_true_eq] at hlen
    refine ⟨by simpa using hofor.symm, by simp [hofor], by simpa using hlen⟩
  refine ⟨⟨?_, ?_⟩, hmem⟩
  · intro hk
    rw [List.mem_map] at hk
    obtain ⟨c, hc, hck⟩ := hk
    have := (hmem c hc).2
    rw [hck] at this
    omega
  · intro hlen
    have hne : occsFor results k ≠ [] := by
      intro h0
      rw [h0] at hlen
      simp at hlen
    have hget := hocc k
    have hkm : (k, getOcc k (buildClaimsMap (occurrencesOf results)))
        ∈ buildClaimsMap (occurrencesOf results) :=
      mem_of_getOcc_ne k _ (by rw [hget]; exact hne)
    rw [hget] at hkm
    have hfil : (k, occsFor results k)
        ∈ (buildClaimsMap (occurrencesOf results)).filter (fun p => 1 < p.2.length) := by
      rw [List.mem_filter]
      exact ⟨hkm, by simp; omega⟩
    have hmap : CrossRefRec.mk k (occsFor results k) (occsFor results k).length
        ∈ ((buildClaimsMap (occurrencesOf results)).filter
            (fun p => 1 < p.2.length)).map
          (fun p => CrossRefRec.mk p.1 p.2 p.2.length) :=
      List.mem_map.2 ⟨(k, occsFor results k), hfil, rfl⟩
    rw [List.mem_map]
    exact ⟨CrossRefRec.mk k (occsFor results k) (occsFor results k).length,
      hperm.mem_iff.2 hmap, rfl⟩

/-- Helper: deduplication retains a subsequence of its input (insertion
order preserved, nothing invented). -/
theorem dedupAux_sublist (l : List SourceRec) :
    ∀ us ts, (dedupAux l us ts).Sublist l := by
  induction l with
  | nil => intro us ts; simp [dedupAux]
  | cons r rs ih =>
    intro us ts
    by_cases h : r.url ∈ us ∨ r.title ∈ ts
    · simp only [dedupAux, if_pos h]
      exact (ih us ts).cons r
    · simp only [dedupAux, if_neg h]
      exact (ih _ _).cons₂ r

/-- Helper: everything retained avoids the already-seen url and title
sets. -/
theorem dedupAux_not_seen (l : List SourceRec) :
    ∀ us ts r, r ∈ dedupAux l us ts → r.url ∉ us ∧ r.title ∉ ts := by
  induction l with
  | nil => intro us ts r h; simp [dedupAux] at h
  | cons s rs ih =>
    intro us ts r h
    by_cases hs : s.url ∈ us ∨ s.title ∈ ts
    · simp only [dedupAux, if_pos hs] at h
      exact ih us ts r h
    · simp only [dedupAux, if_neg hs] at h
      rcases List.mem_cons.1 h with h | h
      · subst h
        push_neg at hs
        exact hs
      · have h2 := ih _ _ r h
        exact ⟨fun hu => h2.1 (List.mem_cons_of_mem _ hu),
          fun ht => h2.2 (List.mem_cons_of_mem _ ht)⟩

/-- Helper: retained results are pairwise distinct in url and in title. -/
theorem dedupAux_pairwise (l : List SourceRec) :
    ∀ us ts, (dedupAux l us ts).Pairwise
      (fun a b => a.url ≠ b.url ∧ a.title ≠ b.title) := by
  induction l with
  | nil => intro us ts; simp [dedupAux]
  | cons s rs ih =>
    intro us ts
    by_cases hs : s.url ∈ us ∨ s.title ∈ ts
    · simp only [dedupAux, if_pos hs]
      exact ih us ts
    · simp only [dedupAux, if_neg hs]
      refine List.Pairwise.cons ?_ (ih _ _)
      intro b hb
      have h2 := dedupAux_not_seen rs _ _ b hb
      refine ⟨fun he => h2.1 ?_, fun he => h2.2 ?_⟩
      · exact he ▸ List.mem_cons_self _ _
      · exact he ▸ List.mem_cons_self _ _

/-- Helper: every input result is either represented among the retained
results (sharing its url or title) or was pre-seen. -/
theorem dedupAux_coverage (l : List SourceRec) :
    ∀ us ts r, r ∈ l →
      (∃ r2 ∈ dedupAux l us ts, r2.url = r.url ∨ r2.title = r.title) ∨
        (r.url ∈ us ∨ r.title ∈ ts) := by
  induction l with
  | nil => intro us ts r h; cases h
  | cons s rs ih =>
    intro us ts r h
    by_cases hs : s.url ∈ us ∨ s.title ∈ ts
    · simp only [dedupAux, if_pos hs]
      rcases List.mem_cons.1 h with h | h
      · subst h
        exact Or.inr hs
      · exact ih us ts r h
    · simp only [dedupAux, if_neg hs]
      rcases List.mem_cons.1 h with h | h
      · subst h
        exact Or.inl ⟨r, List.mem_cons_self _ _, Or.inl rfl⟩
      · rcases ih (s.url :: us) (s.title :: ts) r h with ⟨r2, hr2, hor⟩ | hseen
        · exact Or.inl ⟨r2, List.mem_cons_of_mem _ hr2, hor⟩
        · rcases hseen with hu | ht
          · rcases List.mem_cons.1 hu with he | hu
            · exact Or.inl ⟨s, List.mem_cons_self _ _, Or.inl he.symm⟩
            · exact Or.inr (Or.inl hu)
          · rcases List.mem_cons.1 ht with he | ht
            · exact Or.inl ⟨s, List.mem_cons_self _ _, Or.inr he.symm⟩
            · exact Or.inr (Or.inr ht)

/-- CLAIM C4 (counterexample).  Two search results with the same url but
different titles have different (url, title) pairs, yet only the first is
retained, refuting deduplication by (url, title) *pair* equality. -/
theorem dedup_same_url_diff_title_cex :
    (srcA.url, srcA.title) ≠ (srcB.url, srcB.title) ∧
      deduplicateResults [srcA, srcB] = [srcA] := by
  exact ⟨by decide, by decide⟩

/-- CLAIM C4 (corrected).  Deduplication is by url *or* title with the
first occurrence winning: the retained results form a subsequence of the
input (insertion order preserved), no two retained results share a url or
share a title, and every input result shares its url or its title with
some retained result. -/
theorem dedup_url_or_title_characterization (results : List SourceRec) :
    (deduplicateResults results).Sublist results
    ∧ (deduplicateResults results).Pairwise
        (fun a b => a.url ≠ b.url ∧ a.title ≠ b.title)
    ∧ ∀ r ∈ results, ∃ r2 ∈ deduplicateResults results,
        r2.url = r.url ∨ r2.title = r.title := by
  refine ⟨dedupAux_sublist results [] [], dedupAux_pairwise results [] [], ?_⟩
  intro r hr
  rcases dedupAux_coverage results [] [] r hr with h | h
  · exact h
  · simp at h

/-- CLAIM C4 (witness).  The corrected characterization applied to the
concrete two-element input, with the coverage hypothesis discharged at
`srcB`. -/
theorem dedup_url_or_title_characterization_witness :
    (deduplicateResults [srcA, srcB]).Sublist [srcA, srcB] ∧
      ∃ r2 ∈ deduplicateResults [srcA, srcB],
        r2.url = srcB.url ∨ r2.title = srcB.title :=
  ⟨(dedup_url_or_title_characterization [srcA, srcB]).1,
    (dedup_url_or_title_characterization [srcA, srcB]).2.2 srcB (by decide)⟩

/-- CLAIM C6 (counterexample).  A url whose top-level domain is `net` but
which contains `edu` as a substring: the claimed top-level-domain scoring
yields `0.5` while the code yields `0.7`, refuting the claimed domain
rule. -/
theorem credibility_substring_domain_cex :
    tldOf resultEduNet.source.url = jstr "net" ∧
      credibilityClaimed resultEduNet = 1/2 ∧
      credibilityOf resultEduNet = 7/10 ∧
      credibilityClaimed resultEduNet ≠ credibilityOf resultEduNet := by
  have h1 : credibilityClaimed resultEduNet = 1/2 := by
    unfold credibilityClaimed
    simp only [resultEduNet, analysisNone]
    rw [if_neg (by decide), if_neg (by decide)]
    rw [max_def, min_def]
    norm_num
  have h2 : credibilityOf resultEduNet = 7/10 := by
    unfold credibilityOf
    simp only [resultEduNet, analysisNone]
    rw [if_pos (by decide)]
    rw [max_def, min_def]
    norm_num
  refine ⟨by decide, h1, h2, ?_⟩
  rw [h1, h2]
  norm_num

/-- CLAIM C6 (corrected).  The per-result credibility equals the amended
step-by-step description — base `0.5`; `+0.2` when the url *contains*
`edu`/`org`/`gov` as a substring, else `+0.1` when it contains `com`;
averaged with a truthy analysis quality; `-0.2`/`-0.1` for a truthy bias
equal to `high`/`medium`; `-0.1`/`+0.1` for truthy readability below `0.2`
/ above `0.7` — and is always clamped to `[0, 1]` for arbitrary inputs. -/
theorem credibility_amended_clamped (r : ResultRec) :
    credibilityOf r = credibilityAmended r ∧
      0 ≤ credibilityOf r ∧ credibilityOf r ≤ 1 := by
  refine ⟨rfl, ?_, ?_⟩
  · unfold credibilityOf
    exact le_max_left 0 _
  · unfold credibilityOf
    exact max_le (by norm_num) (min_le_left 1 _)

/-- Dummy cross-reference record used to realize a concrete count. -/
def crossRefDummy : CrossRefRec := { claim := jstr "c", sources := [], count := 2 }

/-- Concrete credibility record with score `0.8`. -/
def credEx : CredRec := { source := jstr "s", url := jstr "u", credibility := 8/10 }

/-- CLAIM C5 (confirmed).  The overall confidence equals
`0.6 * min(1, count * 0.3) + 0.4 * mean(credibilities)` with the mean
falling back to `0.5` on an empty credibility list; a verification outcome
with no credibility scores (an empty result set) has confidence exactly
`0.2`; and three cross-references with average credibility `0.8` give
confidence `0.86 = 43/50`. -/
theorem overall_confidence_formula (crossRefs : List CrossRefRec)
    (creds : List CredRec) (results : List ResultRec) :
    calculateOverallConfidence crossRefs creds
      = (6/10) * min 1 ((crossRefs.length : ℚ) * (3/10))
        + (4/10) * (if creds = [] then 1/2
            else (creds.map CredRec.credibility).sum / (creds.length : ℚ))
    ∧ ((verifyPlugin results).credibility_scores = [] →
        (verifyPlugin results).confidence = 1/5)
    ∧ calculateOverallConfidence [crossRefDummy, crossRefDummy, crossRefDummy]
        [credEx] = 43/50 := by
  refine ⟨?_, ?_, ?_⟩
  · unfold calculateOverallConfidence
    cases creds with
    | nil => simp [mul_comm]
    | cons c cs =>
      simp only [List.length_cons, if_neg (by simp : ¬(c :: cs = []))]
      rw [if_pos (by positivity)]
      ring
  · intro h
    have hres : results = [] := by
      have h2 : results.map
          (fun r => CredRec.mk r.source.title r.source.url (credibilityOf r)) = [] := h
      exact List.map_eq_nil_iff.1 h2
    subst hres
    show calculateOverallConfidence (performCrossReferencing []) (calculateCredibility []) = 1/5
    unfold calculateOverallConfidence performCrossReferencing calculateCredibility
    norm_num [occurrencesOf, buildClaimsMap, sortByCountDesc]
  · unfold calculateOverallConfidence
    rw [min_def]
    norm_num [crossRefDummy, credEx]

/-- CLAIM C5 (witness).  The formula theorem applied at concrete inputs,
with the empty-credibility hypothesis discharged at the empty result
set. -/
theorem overall_confidence_formula_witness :
    (verifyPlugin []).confidence = 1/5 ∧
      calculateOverallConfidence [crossRefDummy, crossRefDummy, crossRefDummy]
        [credEx] = 43/50 :=
  ⟨(overall_confidence_formula [] [] []).2.1 rfl,
    (overall_confidence_formula [] [] []).2.2⟩

/-- CLAIM C3 (witness).  The corrected characterization applied to the
concrete repeated-sentence input, with the membership hypothesis
discharged at the concrete cross-reference record. -/
theorem crossref_occurrence_characterization_witness :
    crossRefRepeat.sources = occsFor [resultRepeat] crossRefRepeat.claim ∧
      crossRefRepeat.count = (occsFor [resultRepeat] crossRefRepeat.claim).length ∧
      2 ≤ crossRefRepeat.count :=
  (crossref_occurrence_characterization [resultRepeat]
      (jstr "abcdefghijklmnop")).2 crossRefRepeat (by decide)

/-- CLAIM C8 (confirmed).  A lookup that misses the memory tier and hits a
valid durable entry returns the durable value and leaves the in-memory
map (and the durable tier) unchanged: a durable hit is never promoted
into the memory tier. -/
theorem durable_hit_not_promoted (cfg : ResearchConfig) (now : ℤ)
    (mem file : List (Str × CacheEntry)) (key : Str) (entry : CacheEntry)
    (hmem : lookupEntry key mem = none)
    (hfile : lookupEntry key file = some entry)
    (hvalid : now - entry.timestamp < cfg.cacheTtl * 1000)
    (hen : cfg.cacheEnabled = true) :
    getCachedResult cfg now mem file key = (some entry.data, mem, file) := by
  unfold getCachedResult fileTierRead
  rw [hmem, hen, hfile]
  simp [hvalid]

/-- CLAIM C8 (witness).  The no-promotion theorem at a concrete empty
memory tier and a one-entry durable tier. -/
theorem durable_hit_not_promoted_witness :
    getCachedResult cfgCacheOn 1000 [] [(jstr "k", ⟨ctxDummy, 0⟩)] (jstr "k")
      = (some ctxDummy, [], [(jstr "k", ⟨ctxDummy, 0⟩)]) :=
  durable_hit_not_promoted cfgCacheOn 1000 [] [(jstr "k", ⟨ctxDummy, 0⟩)]
    (jstr "k") ⟨ctxDummy, 0⟩ rfl (by decide) (by decide) rfl

/-- CLAIM C9 (confirmed).  On an empty or non-string topic, `research`
fails input validation with the fixed error, emits only the start and
error events (no capability, synthesis, cache or persistence effect), and
returns the agent state unchanged: no cache entry is written and no
history entry is added. -/
theorem research_invalid_topic_rejected (cfg : ResearchConfig) (caps : Caps)
    (env : Env) (st : AgentState) (topic : JSValue) (options : OptionsObj)
    (h : topic = JSValue.vstr [] ∨ isStringVal topic = false) :
    research cfg caps env st topic options
      = (Except.error (jstr "Research topic must be a non-empty string"),
         [Effect.emit (jstr "research:start"), Effect.emit (jstr "research:error")], st)
    ∧ ∀ e ∈ [Effect.emit (jstr "research:start"), Effect.emit (jstr "research:error")],
        e.isCapCall = false ∧ e.isStateWrite = false := by
  have hcond : (!(jsTruthy topic) || !(isStringVal topic)) = true := by
    rcases h with h | h
    · subst h; decide
    · rw [h]; simp
  refine ⟨?_, by decide⟩
  unfold research
  rw [hcond]
  simp

/-- CLAIM C9 (witness).  The validation theorem at a concrete non-string
(numeric) topic. -/
theorem research_invalid_topic_rejected_witness :
    research cfgCacheOn capsNone envZero stEmpty (JSValue.vnum 5) []
      = (Except.error (jstr "Research topic must be a non-empty string"),
         [Effect.emit (jstr "research:start"), Effect.emit (jstr "research:error")],
         stEmpty)
    ∧ ∀ e ∈ [Effect.emit (jstr "research:start"), Effect.emit (jstr "research:error")],
        e.isCapCall = false ∧ e.isStateWrite = false :=
  research_invalid_topic_rejected cfgCacheOn capsNone envZero stEmpty
    (JSValue.vnum 5) [] (Or.inr rfl)

/-- CLAIM C1 (counterexample).  With an installed search capability that
throws, a research call on a valid topic fails with that error: the
failure is not recovered at the call site and the pipeline does not
continue, refuting the claim that the research call still returns a
result. -/
theorem research_search_throw_cex :
    (research cfgNoCache capsSearchThrow envZero stEmpty
        (JSValue.vstr (jstr "ai")) []).1
      = Except.error (jstr "search engine down") := by
  rfl

/-- CLAIM C1 (corrected).  A capability-runtime failure propagates: for
any configuration with caching disabled, any nonempty topic string, and an
installed search capability that throws `e` on that input, the whole
`research` call fails with `e` (the orchestrator re-emits the error and
rethrows instead of substituting an empty contribution). -/
theorem research_capability_error_propagates (cfg : ResearchConfig)
    (caps : Caps) (env : Env) (st : AgentState) (ts : Str) (options : OptionsObj)
    (f : Str → OptionsObj → Except Str (List SourceRec)) (e : Str)
    (hts : ts ≠ [])
    (hcache : cfg.cacheEnabled = false)
    (hsearch : caps.search = some f)
    (hf : f ts options = Except.error e) :
    (research cfg caps env st (JSValue.vstr ts) options).1 = Except.error e := by
  have hcond : (!(jsTruthy (JSValue.vstr ts)) || !(isStringVal (JSValue.vstr ts)))
      = false := by
    simp [jsTruthy, isStringVal, hts]
  have hps : performSearch caps (strOfVal (JSValue.vstr ts)) options
      = (Except.error e, [Effect.capCall (jstr "search")]) := by
    unfold performSearch
    rw [hsearch]
    show (f (strOfVal (JSValue.vstr ts)) options, [Effect.capCall (jstr "search")]) = _
    rw [show f (strOfVal (JSValue.vstr ts)) options = Except.error e from hf]
  unfold research
  rw [hcond]
  simp only [Bool.false_eq_true, if_false, hcache]
  rw [hps]

/-- CLAIM C1 (witness).  The propagation theorem at a concrete throwing
search capability and topic. -/
theorem research_capability_error_propagates_witness :
    (research cfgNoCache capsSearchThrow envZero stEmpty
        (JSValue.vstr (jstr "quantum")) []).1
      = Except.error (jstr "search engine down") :=
  research_capability_error_propagates cfgNoCache capsSearchThrow envZero stEmpty
    (jstr "quantum") [] (fun _ _ => Except.error (jstr "search engine down"))
    (jstr "search engine down") (by decide) rfl rfl rfl

/-- CLAIM C10 (confirmed).  `extractContent` always returns a record — so
the silent-skip branch of the research loop is unreachable — whose
`content` falls back to `Content not available` when the snippet is
absent; consequently, whenever the analysis step succeeds on every
content record, the loop produces exactly one analyzed result for each of
the first `maxSources` ranked sources (`research` invokes `gatherResults`
on `searchResults.take maxSources`). -/
theorem extract_total_and_loop_complete (caps : Caps) (topic : Str)
    (sources : List SourceRec) (n : ℕ)
    (hana : ∀ c, ∃ a lg, analyzeContent caps c topic = (Except.ok a, lg)) :
    (∀ s : SourceRec, ∃ c, extractContent s = some c ∧
        (s.snippet = none → c.content = jstr "Content not available"))
    ∧ ∃ rs lg, gatherResults caps topic (sources.take n) = (Except.ok rs, lg)
        ∧ rs.map ResultRec.source = sources.take n := by
  constructor
  · intro s
    refine ⟨_, rfl, ?_⟩
    intro h
    rw [h]
    rfl
  · have main : ∀ l : List SourceRec, ∃ rs lg,
        gatherResults caps topic l = (Except.ok rs, lg)
          ∧ rs.map ResultRec.source = l := by
      intro l
      induction l with
      | nil => exact ⟨[], [], rfl, rfl⟩
      | cons s rest ih =>
        obtain ⟨rs, lg, hg, hmap⟩ := ih
        obtain ⟨a, lga, ha⟩ := hana
          { title := jsStrOr (some s.title) (jstr "Untitled")
            content := jsStrOr s.snippet (jstr "Content not available")
            url := s.url }
        refine ⟨{ source := s
                  content := { title := jsStrOr (some s.title) (jstr "Untitled")
                               content := jsStrOr s.snippet (jstr "Content not available")
                               url := s.url }
                  analysis := a } :: rs, lga ++ lg, ?_, ?_⟩
        · simp only [gatherResults, extractContent]
          rw [ha, hg]
        · simp [hmap]
    exact main (sources.take n)

/-- CLAIM C10 (witness).  The totality-and-loop theorem at concrete
sources with the absent analysis capability (whose fallback always
succeeds). -/
theorem extract_total_and_loop_complete_witness :
    (∀ s : SourceRec, ∃ c, extractContent s = some c ∧
        (s.snippet = none → c.content = jstr "Content not available"))
    ∧ ∃ rs lg, gatherResults capsNone (jstr "t") ([srcA, srcB].take 1)
        = (Except.ok rs, lg)
        ∧ rs.map ResultRec.source = [srcA, srcB].take 1 :=
  extract_total_and_loop_complete capsNone (jstr "t") [srcA, srcB] 1
    (fun _ => ⟨fallbackAnalysis (jstr "t"), [], rfl⟩)
